import Mathlib

/-!
Verification of the core state machines of an ERC-4337 bundler, shallowly
embedded from its TypeScript sources: the mempool manager (entry counting,
replacement, removal), the reputation manager (seen/included counters, ageing,
status classification), the validation manager's post-simulation checks, and
the bundle builder's greedy packing loop.

Addresses and byte blobs are kept in their `0x…` hex-string form, which is the
form the TypeScript code manipulates (`hexlify` output).  Machine numbers
(`number` / `BigNumber`) are modelled as `Int`; `Math.floor` of a division is
modelled with `Int.fdiv` (floor division).  JS objects used as string-keyed
maps are modelled either as `String → Option α` (when never iterated) or as
association lists (when iterated).
-/

namespace Bundler

/-- JS nullish-coalescing `x ?? y` applied to an optional left operand: the
left value wins whenever it is non-null. -/
def nullishOr (x : Option Bool) (y : Bool) : Bool :=
  match x with
  | some b => b
  | none => y

/-- Error object thrown by `requireCond` (`RpcError` in `utils`); only the
message and the numeric code are relevant to the verified properties. -/
structure RpcErr where
  msg : String
  code : Int
deriving DecidableEq, Repr

/-- Fail with an `RpcError` when the condition does not hold (`requireCond`
in `utils`). -/
def requireCond (cond : Bool) (msg : String) (code : Int) : Except RpcErr Unit :=
  if cond then .ok () else .error { msg := msg, code := code }

namespace ValidationErrors

def InvalidFields : Int := -32602

def SimulateValidation : Int := -32500

def SimulatePaymasterValidation : Int := -32501

def OpcodeValidation : Int := -32502

def NotInTimeRange : Int := -32503

def Reputation : Int := -32504

def InsufficientStake : Int := -32505

def UnsupportedSignatureAggregator : Int := -32506

def InvalidSignature : Int := -32507

end ValidationErrors

/-- Extract the leading 20-byte address from a hex blob (`getAddr` in
`utils`): `undefined` propagates; otherwise the first 42 characters
(`0x` + 40 hex digits) when the string is long enough. -/
def getAddr (data : Option String) : Option String :=
  match data with
  | none => none
  | some str => if str.length ≥ 42 then some (str.take 42) else none

/-- JS `toLowerCase()` on hex address strings: lowercase every character
(`Char.toLower`, which for the ASCII range of hex addresses is exactly the JS
behavior). -/
def lowercase (s : String) : String :=
  String.mk (s.data.map Char.toLower)

/-- UserOperation record, restricted to the fields the verified components
inspect. -/
structure UserOperation where
  sender : String
  nonce : Int
  initCode : String
  callData : String
  callGasLimit : Int
  verificationGasLimit : Int
  preVerificationGas : Int
  maxFeePerGas : Int
  maxPriorityFeePerGas : Int
  paymasterAndData : String
  signature : String
deriving DecidableEq, Repr

/-- StakeInfo as reported by the entry point's deposit-info read path. -/
structure StakeInfo where
  addr : String
  stake : Int
  unstakeDelaySec : Int
deriving DecidableEq, Repr

/- ReputationManager (src/src/modules/ReputationManager.ts) -/

inductive ReputationStatus
  | OK
  | THROTTLED
  | BANNED
deriving DecidableEq, Repr, BEq

structure ReputationParams where
  minInclusionDenominator : Int
  throttlingSlack : Int
  banSlack : Int
deriving DecidableEq, Repr

/-- Bundler parameter profile from the source. -/
def BundlerReputationParams : ReputationParams :=
  { minInclusionDenominator := 10, throttlingSlack := 10, banSlack := 50 }

structure ReputationEntry where
  address : String
  opsSeen : Int
  opsIncluded : Int
deriving DecidableEq, Repr

/-- Reputation manager state: the `entries` object is iterated by
`hourlyCron` and `dump`, so it is modelled as an association list with
unique keys (JS object keys are unique). -/
structure RepState where
  entries : List (String × ReputationEntry)
  blackList : List String
  whitelist : List String
deriving DecidableEq, Repr

/-- Configuration fields of the reputation manager. -/
structure RepConfig where
  params : ReputationParams
  minStake : Int
  minUnstakeDelay : Int
deriving DecidableEq, Repr

def lookupEntry (s : RepState) (addr : String) : Option ReputationEntry :=
  (s.entries.find? (fun p => p.1 == addr)).map (·.2)

/-- Source `_getOrCreate` merged with the subsequent in-place mutation:
apply `f` to the entry stored at the lowercased address, creating a zeroed
entry first when the key is absent (new keys are appended, matching JS
object insertion order). -/
def modifyEntry (addr : String) (f : ReputationEntry → ReputationEntry)
    (s : RepState) : RepState :=
  let a := lowercase addr
  match lookupEntry s a with
  | some _ =>
      { s with entries := s.entries.map (fun p => if p.1 == a then (p.1, f p.2) else p) }
  | none =>
      { s with entries := s.entries ++ [(a, f { address := a, opsSeen := 0, opsIncluded := 0 })] }

/-- `updateSeenStatus`: increment `opsSeen`, ignoring a null address. -/
def updateSeenStatus (addr : Option String) (s : RepState) : RepState :=
  match addr with
  | none => s
  | some a => modifyEntry a (fun e => { e with opsSeen := e.opsSeen + 1 }) s

/-- `updateIncludedStatus`: increment `opsIncluded`. -/
def updateIncludedStatus (addr : String) (s : RepState) : RepState :=
  modifyEntry addr (fun e => { e with opsIncluded := e.opsIncluded + 1 }) s

/-- `crashedHandleOps`: punitive update after an attributable on-chain
`handleOps` revert, ignoring a null address. -/
def crashedHandleOps (addr : Option String) (s : RepState) : RepState :=
  match addr with
  | none => s
  | some a => modifyEntry a (fun e => { e with opsSeen := e.opsSeen + 10000, opsIncluded := 0 }) s

/-- `clearState` of the reputation manager. -/
def repClearState (s : RepState) : RepState :=
  { s with entries := [] }

/-- One entry aged by `hourlyCron`.  The source (line 65) recomputes
`opsIncluded` from the already-updated `opsSeen` field, not from the old
`opsIncluded`; that line is transcribed verbatim here. -/
def agedEntry (e : ReputationEntry) : ReputationEntry :=
  let seen := Int.fdiv (e.opsSeen * 23) 24
  let included := Int.fdiv (seen * 23) 24
  { e with opsSeen := seen, opsIncluded := included }

/-- `hourlyCron`: age every entry, deleting those whose two counters both
ended at zero. -/
def hourlyCron (s : RepState) : RepState :=
  let aged := s.entries.map (fun p => (p.1, agedEntry p.2))
  { s with entries := aged.filter (fun p => !(p.2.opsIncluded == 0 && p.2.opsSeen == 0)) }

/-- `getStatus`: whitelist wins, then blacklist, then the counter-derived
classification; unknown addresses are OK. -/
def getStatus (params : ReputationParams) (s : RepState)
    (addr : Option String) : ReputationStatus :=
  match addr with
  | none => .OK
  | some raw =>
    let a := lowercase raw
    if s.whitelist.contains a then .OK
    else if s.blackList.contains a then .BANNED
    else
      match lookupEntry s a with
      | none => .OK
      | some entry =>
        let minExpectedIncluded := Int.fdiv entry.opsSeen params.minInclusionDenominator
        if minExpectedIncluded ≤ entry.opsIncluded + params.throttlingSlack then .OK
        else if minExpectedIncluded ≤ entry.opsIncluded + params.banSlack then .THROTTLED
        else .BANNED

/-- `isWhitelisted` (note: the source does not lowercase here). -/
def isWhitelisted (s : RepState) (addr : String) : Bool :=
  s.whitelist.contains addr

/-- `calculateMaxAllowedMempoolOpsUnstaked`.  The source computes
`Math.floor(inclusionRate * 10)` with binary64 division; it is modelled by
the exact integer floor `⌊10·opsIncluded/opsSeen⌋` (and 0 when
`opsSeen = 0`, as in the source). -/
def calculateMaxAllowedMempoolOpsUnstaked (s : RepState) (entity : String) : Int :=
  let a := lowercase entity
  match lookupEntry s a with
  | none => 10
  | some entry =>
    let rateFloor :=
      if entry.opsSeen == 0 then 0 else Int.fdiv (entry.opsIncluded * 10) entry.opsSeen
    10 + rateFloor + min entry.opsIncluded 10000

/-- `checkBanned`. -/
def checkBanned (params : ReputationParams) (s : RepState)
    (info : StakeInfo) : Except RpcErr Unit :=
  requireCond (getStatus params s (some info.addr) != .BANNED)
    "entity is banned" ValidationErrors.Reputation

/-- `checkThrottled`. -/
def checkThrottled (params : ReputationParams) (s : RepState)
    (info : StakeInfo) : Except RpcErr Unit :=
  requireCond (getStatus params s (some info.addr) != .THROTTLED)
    "entity is throttled" ValidationErrors.Reputation

/-- `checkStake`: a null stake-info or a whitelisted address passes; else
require not banned, stake at least `minStake` and unstake delay at least
`minUnstakeDelay`. -/
def checkStake (cfg : RepConfig) (s : RepState)
    (info : Option StakeInfo) : Except RpcErr Unit :=
  match info with
  | none => .ok ()
  | some i =>
    if isWhitelisted s i.addr then .ok ()
    else do
      requireCond (getStatus cfg.params s (some i.addr) != .BANNED)
        "entity is banned" ValidationErrors.Reputation
      requireCond (decide (cfg.minStake ≤ i.stake))
        "stake too low" ValidationErrors.InsufficientStake
      requireCond (decide (cfg.minUnstakeDelay ≤ i.unstakeDelaySec))
        "unstake delay too low" ValidationErrors.InsufficientStake

/- MempoolManager (src/unnamed/part_002) -/

structure ReferencedCodeHashes where
  addresses : List String
  hash : String
deriving DecidableEq, Repr

structure MempoolEntry where
  userOp : UserOperation
  userOpHash : String
  prefund : Int
  referencedContracts : ReferencedCodeHashes
  aggregator : Option String
deriving DecidableEq, Repr

/-- JS object used for `_entryCount`: a present key holds a number, an absent
key reads as `undefined`.  The object is never iterated, so a plain function
model suffices. -/
abbrev EntryCountMap := String → Option Int

/-- Mempool manager state. -/
structure MempoolState where
  mempool : List MempoolEntry
  entryCount : EntryCountMap

/-- Fresh mempool manager state, also the result of `clearState`. -/
def mempoolClearState : MempoolState :=
  { mempool := [], entryCount := fun _ => none }

/-- Public accessor `entryCount(address)`. -/
def entryCountOf (s : MempoolState) (address : String) : Option Int :=
  s.entryCount (lowercase address)

/-- `incrementEntryCount`: lowercase, ignore null, then bump with `?? 0`. -/
def incrementEntryCount (address : Option String) (m : EntryCountMap) : EntryCountMap :=
  match address with
  | none => m
  | some raw =>
    let a := lowercase raw
    fun k => if k = a then some ((m a).getD 0 + 1) else m k

/-- `decrementEntryCount`: lowercase; a null address or an absent key is a
no-op; otherwise decrement and delete the key when the result is ≤ 0. -/
def decrementEntryCount (address : Option String) (m : EntryCountMap) : EntryCountMap :=
  match address with
  | none => m
  | some raw =>
    let a := lowercase raw
    match m a with
    | none => m
    | some v =>
      fun k => if k = a then (if v - 1 ≤ 0 then none else some (v - 1)) else m k

/-- `_findBySenderNonce`: index of the first entry with strictly equal sender
and nonce (`===` on the primitive values). -/
def findBySenderNonce (sender : String) (nonce : Int) : List MempoolEntry → Option Nat
  | [] => none
  | e :: rest =>
    if e.userOp.sender == sender && e.userOp.nonce == nonce then some 0
    else (findBySenderNonce sender nonce rest).map (· + 1)

/-- `_findByHash`: index of the first entry with the given userOpHash. -/
def findByHash (hash : String) : List MempoolEntry → Option Nat
  | [] => none
  | e :: rest =>
    if e.userOpHash == hash then some 0
    else (findByHash hash rest).map (· + 1)

/-- Argument of `removeUserOp`, a TypeScript union `UserOperation | string`. -/
inductive UserOpOrHash
  | hash (h : String)
  | op (u : UserOperation)

/-- Lookup dispatch performed at the top of `removeUserOp`. -/
def findIndexOf (arg : UserOpOrHash) (pool : List MempoolEntry) : Option Nat :=
  match arg with
  | .hash h => findByHash h pool
  | .op u => findBySenderNonce u.sender u.nonce pool

/-- `removeUserOp`: when a matching entry exists, splice it out and decrement
the entry counts of its sender, paymaster and factory; otherwise do nothing. -/
def removeUserOp (arg : UserOpOrHash) (s : MempoolState) : MempoolState :=
  match findIndexOf arg s.mempool with
  | none => s
  | some i =>
    match s.mempool.get? i with
    | none => s
    | some entry =>
      { mempool := s.mempool.eraseIdx i
        entryCount :=
          decrementEntryCount (getAddr (some entry.userOp.initCode))
            (decrementEntryCount (getAddr (some entry.userOp.paymasterAndData))
              (decrementEntryCount (some entry.userOp.sender) s.entryCount)) }

/-- `getKnownSenders`: lowercased senders of all entries. -/
def getKnownSenders (s : MempoolState) : List String :=
  s.mempool.map (fun it => lowercase it.userOp.sender)

/-- `getKnownEntities`: lowercased paymasters then factories of all entries,
nulls filtered out. -/
def getKnownEntities (s : MempoolState) : List String :=
  ((s.mempool.map (fun it => getAddr (some it.userOp.paymasterAndData)))
      ++ s.mempool.map (fun it => getAddr (some it.userOp.initCode))).filterMap
    (fun it => it.map lowercase)

/-- Fee-bump check for replacement (`checkReplaceUserOp`).  The source
compares `new >= old * 1.1` on binary64 numbers obtained through
`BigNumber.toNumber()`; the comparison is transcribed as the exact rational
inequality `10·new ≥ 11·old`.  Binary64 rounding of `old * 1.1` makes the
source deviate from this exact form on some inputs (for example
`100 * 1.1 > 110`), which is why the replacement boundary claim is settled
outside this embedding. -/
def checkReplaceUserOp (oldEntry entry : MempoolEntry) : Except RpcErr Unit := do
  requireCond
    (decide (10 * entry.userOp.maxPriorityFeePerGas ≥ 11 * oldEntry.userOp.maxPriorityFeePerGas))
    "Replacement UserOperation must have higher maxPriorityFeePerGas"
    ValidationErrors.InvalidFields
  requireCond
    (decide (10 * entry.userOp.maxFeePerGas ≥ 11 * oldEntry.userOp.maxFeePerGas))
    "Replacement UserOperation must have higher maxFeePerGas"
    ValidationErrors.InvalidFields

/-- `checkReputationStatus` of the mempool manager; the throttled floor
`THROTTLED_ENTITY_MEMPOOL_COUNT` is 4. -/
def checkReputationStatus (cfg : RepConfig) (rep : RepState) (s : MempoolState)
    (stakeInfo : StakeInfo) (maxTxMempoolAllowedOverride : Option Int) : Except RpcErr Unit := do
  let maxTxMempoolAllowedEntity :=
    match maxTxMempoolAllowedOverride with
    | some v => v
    | none => calculateMaxAllowedMempoolOpsUnstaked rep stakeInfo.addr
  checkBanned cfg.params rep stakeInfo
  let entryCount := (entryCountOf s stakeInfo.addr).getD 0
  if entryCount > 4 then checkThrottled cfg.params rep stakeInfo else pure ()
  if entryCount > maxTxMempoolAllowedEntity then checkStake cfg rep (some stakeInfo) else pure ()

/-- `checkReputation`; `MAX_MEMPOOL_USEROPS_PER_SENDER` is 4. -/
def checkReputation (cfg : RepConfig) (rep : RepState) (s : MempoolState)
    (senderInfo : StakeInfo)
    (paymasterInfo factoryInfo aggregatorInfo : Option StakeInfo) : Except RpcErr Unit := do
  checkReputationStatus cfg rep s senderInfo (some 4)
  match paymasterInfo with
  | some i => checkReputationStatus cfg rep s i none
  | none => pure ()
  match factoryInfo with
  | some i => checkReputationStatus cfg rep s i none
  | none => pure ()
  match aggregatorInfo with
  | some i => checkReputationStatus cfg rep s i none
  | none => pure ()

/-- `checkMultipleRolesViolation`. -/
def checkMultipleRolesViolation (s : MempoolState) (userOp : UserOperation) : Except RpcErr Unit := do
  let knownEntities := getKnownEntities s
  requireCond (!(knownEntities.contains (lowercase userOp.sender)))
    "sender used as a different entity in another mempool UserOperation"
    ValidationErrors.OpcodeValidation
  let knownSenders := getKnownSenders s
  let paymaster := (getAddr (some userOp.paymasterAndData)).map lowercase
  let factory := (getAddr (some userOp.initCode)).map lowercase
  let isPaymasterSenderViolation := knownSenders.contains (paymaster.getD "")
  let isFactorySenderViolation := knownSenders.contains (factory.getD "")
  requireCond (!isPaymasterSenderViolation)
    "paymaster used as a sender entity in another mempool UserOperation"
    ValidationErrors.OpcodeValidation
  requireCond (!isFactorySenderViolation)
    "factory used as a sender entity in another mempool UserOperation"
    ValidationErrors.OpcodeValidation

/-- Combined bundler state threaded through the mempool intake path. -/
structure FullState where
  pool : MempoolState
  rep : RepState

/-- Private `updateSeenStatus` of the mempool manager: the account stake
check plus the sender's seen-update run inside a try/catch that swallows
`RpcError`; the aggregator, paymaster and factory seen-updates always run. -/
def mempoolUpdateSeenStatus (cfg : RepConfig) (aggregator : Option String)
    (userOp : UserOperation) (senderInfo : StakeInfo) (rep : RepState) : RepState :=
  let rep1 :=
    match checkStake cfg rep (some senderInfo) with
    | .ok _ => updateSeenStatus (some userOp.sender) rep
    | .error _ => rep
  updateSeenStatus (getAddr (some userOp.initCode))
    (updateSeenStatus (getAddr (some userOp.paymasterAndData))
      (updateSeenStatus aggregator rep1))

/-- `addUserOp`.  The returned state is the state left behind even when the
call throws (`some err`): on the fresh-entry path the entry counts are
incremented before the reputation and multi-role checks run, so a failing
call keeps those increments while pushing no entry. -/
def addUserOp (cfg : RepConfig) (userOp : UserOperation) (userOpHash : String)
    (prefund : Int) (referencedContracts : ReferencedCodeHashes)
    (senderInfo : StakeInfo) (paymasterInfo factoryInfo aggregatorInfo : Option StakeInfo)
    (st : FullState) : FullState × Option RpcErr :=
  let entry : MempoolEntry :=
    { userOp := userOp, userOpHash := userOpHash, prefund := prefund
      referencedContracts := referencedContracts
      aggregator := aggregatorInfo.map (·.addr) }
  match findBySenderNonce userOp.sender userOp.nonce st.pool.mempool with
  | some index =>
    match st.pool.mempool.get? index with
    | none => (st, none)
    | some oldEntry =>
      match checkReplaceUserOp oldEntry entry with
      | .error e => (st, some e)
      | .ok _ =>
        let pool1 := { st.pool with mempool := st.pool.mempool.set index entry }
        let rep1 := mempoolUpdateSeenStatus cfg (aggregatorInfo.map (·.addr)) userOp senderInfo st.rep
        ({ pool := pool1, rep := rep1 }, none)
  | none =>
    let ec1 := incrementEntryCount (some userOp.sender) st.pool.entryCount
    let paymaster := getAddr (some userOp.paymasterAndData)
    let ec2 := incrementEntryCount paymaster ec1
    let factory := getAddr (some userOp.initCode)
    let ec3 := incrementEntryCount factory ec2
    let pool1 := { st.pool with entryCount := ec3 }
    match checkReputation cfg st.rep pool1 senderInfo paymasterInfo factoryInfo aggregatorInfo with
    | .error e => ({ st with pool := pool1 }, some e)
    | .ok _ =>
      match checkMultipleRolesViolation pool1 userOp with
      | .error e => ({ st with pool := pool1 }, some e)
      | .ok _ =>
        let pool2 := { pool1 with mempool := pool1.mempool ++ [entry] }
        let rep1 := mempoolUpdateSeenStatus cfg (aggregatorInfo.map (·.addr)) userOp senderInfo st.rep
        ({ pool := pool2, rep := rep1 }, none)

/- ValidationManager (src/src/validation-manager/ValidationManager.ts) -/

def VALID_UNTIL_FUTURE_SECONDS : Int := 30

/-- Decoded `returnInfo` of the simulated validation.  `validUntil` is a JS
number field; `none` models `null`/`undefined` (which the loose `== null`
comparison matches), while the number 0 is `some 0` and does not match
`== null`. -/
structure SimReturnInfo where
  preOpGas : Int
  prefund : Int
  sigFailed : Bool
  validAfter : Int
  validUntil : Option Int
deriving DecidableEq, Repr

/-- Post-simulation `requireCond` sequence of `validateUserOp` (lines
202-240): signature, the three time-range conditions, aggregator absence and
the 2000-gas headroom check, in source order.  `extraGas` is
`verificationGasLimit - (preOpGas - preVerificationGas)`. -/
def postSimulationChecks (info : SimReturnInfo) (now : Int)
    (aggregatorInfoPresent : Bool)
    (verificationGasLimit preVerificationGas : Int) : Except RpcErr Unit := do
  requireCond (!info.sigFailed)
    "Invalid UserOp signature or paymaster signature" ValidationErrors.InvalidSignature
  requireCond (decide (info.validAfter ≤ now))
    "time-range in the future time" ValidationErrors.NotInTimeRange
  requireCond
    (match info.validUntil with
     | none => true
     | some u => decide (u ≥ now))
    "already expired" ValidationErrors.NotInTimeRange
  requireCond
    (match info.validUntil with
     | none => true
     | some u => decide (u > now + VALID_UNTIL_FUTURE_SECONDS))
    "expires too soon" ValidationErrors.NotInTimeRange
  requireCond (!aggregatorInfoPresent)
    "Currently not supporting aggregator" ValidationErrors.UnsupportedSignatureAggregator
  let extraGas := verificationGasLimit - (info.preOpGas - preVerificationGas)
  requireCond (decide (extraGas ≥ 2000))
    "verificationGas should have extra 2000 gas" ValidationErrors.SimulateValidation

/-- Whether an `Except` outcome is an `RpcError` carrying the given code. -/
def isErrWithCode (r : Except RpcErr Unit) (c : Int) : Bool :=
  match r with
  | .error e => e.code == c
  | .ok _ => false

/-- Modelled from the spec: the time-range-violation predicate exactly as the
claim words it — violated when `validAfter > now`, or when `validUntil` is
nonzero and `validUntil < now + 30s` (`validUntil = 0` meaning no expiry). -/
def specTimeRangeViolated (validAfter : Int) (validUntil : Option Int) (now : Int) : Bool :=
  decide (now < validAfter) ||
    (match validUntil with
     | none => false
     | some u => !(u == 0) && decide (u < now + 30))

/- BundleManager (second part of src/src/modules/ReputationManager.ts) -/

/-- JS `String.prototype.startsWith`, written over the character lists so
that it evaluates by kernel reduction. -/
def strStartsWith (s pre : String) : Bool :=
  pre.data.isPrefixOf s.data

/-- Failure attribution in `sendBundle`'s catch branch once the revert data
parsed as `FailedOp(opIndex, reason)`: AA3 blames the paymaster, AA2 the
sender, AA1 the factory (none of which removes the op); any other reason
removes the failing op from the mempool.  `none` models the TypeError the
source would hit indexing `userOps` out of range. -/
def attributeBundleFailure (userOps : List UserOperation) (opIndex : Nat) (reason : String)
    (rep : RepState) (mp : MempoolState) : Option (RepState × MempoolState) :=
  match userOps.get? opIndex with
  | none => none
  | some userOp =>
    if strStartsWith reason "AA3" then
      some (crashedHandleOps (getAddr (some userOp.paymasterAndData)) rep, mp)
    else if strStartsWith reason "AA2" then
      some (crashedHandleOps (some userOp.sender) rep, mp)
    else if strStartsWith reason "AA1" then
      some (crashedHandleOps (getAddr (some userOp.initCode)) rep, mp)
    else
      some (rep, removeUserOp (.op userOp) mp)

/-- Second-validation outcome used inside the bundle build loop: `none`
models a `validateUserOp` throw; `storageKeys` are the keys of the returned
`storageMap`. -/
structure ValidationOutcome where
  preOpGas : Int
  prefund : Int
  storageKeys : List String
deriving DecidableEq, Repr

/-- Environment of one `createBundle` run: the reputation manager state and
configuration, the outcome of the second validation of each entry, the
entry point's `balanceOf` view, and the configured gas bound. -/
structure BundleEnv where
  cfg : RepConfig
  rep : RepState
  validate : MempoolEntry → Option ValidationOutcome
  balanceOf : String → Int
  maxBundleGas : Int

/-- Point update of a JS numeric map object. -/
def setKey (k : String) (v : Int) (m : String → Option Int) : String → Option Int :=
  fun x => if x = k then some v else m x

/-- Mutable locals of the `createBundle` main loop.  `bundle` keeps the whole
mempool entry (the source pushes `entry.userOp`; project with `·.userOp`).
The merged output `storageMap` and the account-root `eth_getProof` branch are
not modelled: they never influence which ops are admitted. -/
structure BuildState where
  bundle : List MempoolEntry
  totalGas : Int
  senders : List String
  stakedEntityCount : String → Option Int
  paymasterDeposit : String → Option Int
  pool : MempoolState

/-- Increment one entity's in-bundle count (`stakedEntityCount[addr] =
(stakedEntityCount[addr] ?? 0) + 1`). -/
def bumpStaked (addr : String) (s : BuildState) : BuildState :=
  { s with stakedEntityCount := setKey addr ((s.stakedEntityCount addr).getD 0 + 1) s.stakedEntityCount }

/-- Cache miss and subtraction on the paymaster deposit: first sight reads
`balanceOf` into the cache. -/
def readDeposit (env : BundleEnv) (p : String) (s : BuildState) : Int :=
  match s.paymasterDeposit p with
  | none => env.balanceOf p
  | some d => d

/-- Final admission of one entry: count the factory (if any), record the
sender, push the op and advance `totalGas` (lines 437-450 of the build
loop). -/
def admitEntry (e : MempoolEntry) (newTotalGas : Int) (factory : Option String)
    (s : BuildState) : BuildState :=
  let s3 :=
    match factory with
    | some f => bumpStaked f s
    | none => s
  { s3 with
      senders := e.userOp.sender :: s3.senders
      bundle := s3.bundle ++ [e]
      totalGas := newTotalGas }

/-- Banned-entity guard of the build loop (lines 370-376): paymaster or
factory reputation is BANNED. -/
def bannedGuard (env : BundleEnv) (e : MempoolEntry) : Bool :=
  getStatus env.cfg.params env.rep (getAddr (some e.userOp.paymasterAndData)) ==
      ReputationStatus.BANNED ||
    getStatus env.cfg.params env.rep (getAddr (some e.userOp.initCode)) == ReputationStatus.BANNED

/-- Throttle-skip guard of the build loop (lines 377-392), transcribing the
source's `??` (nullish-coalescing) operator verbatim via `nullishOr`, whose
left operand is the non-null boolean `status === THROTTLED`;
`THROTTLED_ENTITY_BUNDLE_COUNT` is 4. -/
def throttleSkipGuard (s : BuildState) (status : ReputationStatus)
    (entity : Option String) : Bool :=
  match entity with
  | some p =>
    nullishOr (some (status == ReputationStatus.THROTTLED))
      (decide ((s.stakedEntityCount p).getD 0 > 4))
  | none => false

/-- Storage-conflict guard (lines 410-420): the second validation touched
the storage of a known sender other than the op's own sender. -/
def storageConflictGuard (knownSenders : List String) (v : ValidationOutcome)
    (e : MempoolEntry) : Bool :=
  v.storageKeys.any (fun k =>
    !((lowercase k) == (lowercase e.userOp.sender)) && knownSenders.contains (lowercase k))

/-- Main loop of `createBundle` (lines 365-451), one iteration per snapshot
entry. -/
def createBundleLoop (env : BundleEnv) (knownSenders : List String) :
    List MempoolEntry → BuildState → BuildState
  | [], s => s
  | e :: rest, s =>
    let paymaster := getAddr (some e.userOp.paymasterAndData)
    let factory := getAddr (some e.userOp.initCode)
    let paymasterStatus := getStatus env.cfg.params env.rep paymaster
    let deployerStatus := getStatus env.cfg.params env.rep factory
    if bannedGuard env e then
      createBundleLoop env knownSenders rest
        { s with pool := removeUserOp (.op e.userOp) s.pool }
    else if throttleSkipGuard s paymasterStatus paymaster then
      createBundleLoop env knownSenders rest s
    else if throttleSkipGuard s deployerStatus factory then
      createBundleLoop env knownSenders rest s
    else if s.senders.contains e.userOp.sender then
      createBundleLoop env knownSenders rest s
    else
      match env.validate e with
      | none =>
        createBundleLoop env knownSenders rest
          { s with pool := removeUserOp (.op e.userOp) s.pool }
      | some v =>
        if storageConflictGuard knownSenders v e then
          createBundleLoop env knownSenders rest s
        else
          let userOpGasCost := v.preOpGas + e.userOp.callGasLimit
          let newTotalGas := s.totalGas + userOpGasCost
          if newTotalGas > env.maxBundleGas then s
          else
            match paymaster with
            | some p =>
              let dep0 := readDeposit env p s
              let s1 := { s with paymasterDeposit := setKey p dep0 s.paymasterDeposit }
              if dep0 < v.prefund then
                createBundleLoop env knownSenders rest s1
              else
                createBundleLoop env knownSenders rest
                  (admitEntry e newTotalGas factory
                    { s1 with
                        stakedEntityCount :=
                          setKey p ((s1.stakedEntityCount p).getD 0 + 1) s1.stakedEntityCount
                        paymasterDeposit := setKey p (dep0 - v.prefund) s1.paymasterDeposit })
            | none =>
              createBundleLoop env knownSenders rest (admitEntry e newTotalGas factory s)

/-- Ascending insertion by `maxPriorityFeePerGas`, modelling the JS
`sort((a, b) => cost(a) - cost(b))` of `getSortedForInclusion`. -/
def insertByFee (e : MempoolEntry) : List MempoolEntry → List MempoolEntry
  | [] => [e]
  | x :: xs =>
    if e.userOp.maxPriorityFeePerGas ≤ x.userOp.maxPriorityFeePerGas then e :: x :: xs
    else x :: insertByFee e xs

/-- `getSortedForInclusion`: a copy of the mempool sorted ascending by
`maxPriorityFeePerGas`. -/
def getSortedForInclusion (s : MempoolState) : List MempoolEntry :=
  s.mempool.foldr insertByFee []

/-- Loop locals as initialized at the top of `createBundle`. -/
def initBuildState (mp : MempoolState) : BuildState :=
  { bundle := [], totalGas := 0, senders := [], stakedEntityCount := fun _ => none
    paymasterDeposit := fun _ => none, pool := mp }

/-- `createBundle`: run the main loop over the inclusion-sorted snapshot,
with `knownSenders` captured before the loop. -/
def createBundle (env : BundleEnv) (mp : MempoolState) : BuildState :=
  createBundleLoop env (getKnownSenders mp) (getSortedForInclusion mp) (initBuildState mp)

/-- Gas cost the build loop charges for an entry:
`preOpGas + callGasLimit`, with `preOpGas` read from the second-validation
outcome (0 for entries that never validated; every admitted entry has an
outcome). -/
def entryGasCost (env : BundleEnv) (e : MempoolEntry) : Int :=
  ((env.validate e).map (·.preOpGas)).getD 0 + e.userOp.callGasLimit

/-- Total charged gas of a list of entries. -/
def bundleGas (env : BundleEnv) (l : List MempoolEntry) : Int :=
  (l.map (entryGasCost env)).sum

/- Reachability of bundler states through the public mempool operations -/

/-- Bundler states reachable through the public mempool operations with
arbitrary arguments: `addUserOp` (kept even when it throws — the returned
state is the mutated state the exception leaves behind), `removeUserOp` and
`clearState`.  Mutations of the reputation state by other components
(`hourlyCron`, `setReputation`, event credits, whitelist updates) are
over-approximated by `repStep`, which is sound for mempool-state
invariants. -/
inductive ReachableState : FullState → Prop
  | init (rep : RepState) : ReachableState { pool := mempoolClearState, rep := rep }
  | clear {s : FullState} : ReachableState s →
      ReachableState { pool := mempoolClearState, rep := repClearState s.rep }
  | remove {s : FullState} (arg : UserOpOrHash) : ReachableState s →
      ReachableState { s with pool := removeUserOp arg s.pool }
  | add {s : FullState} (cfg : RepConfig) (userOp : UserOperation) (userOpHash : String)
      (prefund : Int) (rc : ReferencedCodeHashes) (si : StakeInfo)
      (pi fi ai : Option StakeInfo) : ReachableState s →
      ReachableState (addUserOp cfg userOp userOpHash prefund rc si pi fi ai s).1
  | repStep {s : FullState} (rep : RepState) : ReachableState s →
      ReachableState { s with rep := rep }

/-- Whether an `addUserOp` call for `userOp`, when it lands on the
replacement path, keeps the replaced entry's paymaster and factory. -/
def preservesReplacementEntities (userOp : UserOperation) (s : FullState) : Prop :=
  ∀ i old, findBySenderNonce userOp.sender userOp.nonce s.pool.mempool = some i →
    s.pool.mempool.get? i = some old →
    getAddr (some userOp.paymasterAndData) = getAddr (some old.userOp.paymasterAndData) ∧
    getAddr (some userOp.initCode) = getAddr (some old.userOp.initCode)

/-- Bundler states reachable when every `addUserOp` call succeeds (throws
nothing) and replacements keep the entry's paymaster and factory; removal
and clearing stay unrestricted. -/
inductive ReachableConsistent : FullState → Prop
  | init (rep : RepState) : ReachableConsistent { pool := mempoolClearState, rep := rep }
  | clear {s : FullState} : ReachableConsistent s →
      ReachableConsistent { pool := mempoolClearState, rep := repClearState s.rep }
  | remove {s : FullState} (arg : UserOpOrHash) : ReachableConsistent s →
      ReachableConsistent { s with pool := removeUserOp arg s.pool }
  | addOk {s s' : FullState} (cfg : RepConfig) (userOp : UserOperation) (userOpHash : String)
      (prefund : Int) (rc : ReferencedCodeHashes) (si : StakeInfo)
      (pi fi ai : Option StakeInfo) : ReachableConsistent s →
      addUserOp cfg userOp userOpHash prefund rc si pi fi ai s = (s', none) →
      preservesReplacementEntities userOp s →
      ReachableConsistent s'
  | repStep {s : FullState} (rep : RepState) : ReachableConsistent s →
      ReachableConsistent { s with rep := rep }

/- Role counting used by the entry-count invariant -/

/-- Raw (not yet lowercased) strings whose entry counts `addUserOp`
increments and `removeUserOp` decrements for a UserOperation: its sender,
then its paymaster and factory when extractable. -/
def entityPartsOp (u : UserOperation) : List String :=
  u.sender :: ((getAddr (some u.paymasterAndData)).toList ++ (getAddr (some u.initCode)).toList)

/-- Entity strings of a mempool entry. -/
def entityParts (e : MempoolEntry) : List String :=
  entityPartsOp e.userOp

/-- Number of strings in `L` whose lowercase form is `a`. -/
def lowerCount (L : List String) (a : String) : Nat :=
  L.countP (fun x => (lowercase x) == a)

/-- Number of (entry, role) pairs of the pool whose lowercased role address
is `a`, counting an entry once per role it gives to `a`. -/
def roleCount (pool : List MempoolEntry) (a : String) : Nat :=
  (pool.map (fun e => lowerCount (entityParts e) a)).sum

/-- Amended entry-count invariant: the count map stores, for every address,
the number of (entry, role) pairs naming it, with the key absent when that
number is zero. -/
def entryCountConsistent (s : MempoolState) : Prop :=
  ∀ a, s.entryCount a = if roleCount s.mempool a = 0 then none else some (roleCount s.mempool a : Int)

/-- Modelled from the spec: the per-entry count the original claim asserts —
the number of MempoolEntries whose sender, factory, or paymaster equals the
(lowercased) address, counting each entry at most once. -/
def specEntriesContaining (pool : List MempoolEntry) (a : String) : Nat :=
  (pool.filter (fun e => (entityParts e).any (fun x => (lowercase x) == a))).length

/-- Abstract relation between a count function and an entry-count map: the
map stores exactly the nonzero counts. -/
def CountsInv (c : String → Nat) (m : EntryCountMap) : Prop :=
  ∀ a, m a = if c a = 0 then none else some (c a : Int)

/-- Entry-count values are strictly positive wherever a key is present. -/
def EntryCountPos (m : EntryCountMap) : Prop :=
  ∀ a v, m a = some v → 1 ≤ v

/-- Fold of `incrementEntryCount` over a list of raw addresses. -/
def incList (L : List String) (m : EntryCountMap) : EntryCountMap :=
  L.foldl (fun m x => incrementEntryCount (some x) m) m

/-- Fold of `decrementEntryCount` over a list of raw addresses. -/
def decList (L : List String) (m : EntryCountMap) : EntryCountMap :=
  L.foldl (fun m x => decrementEntryCount (some x) m) m

/- Concrete data used to evaluate the code on specific inputs -/

/-- Configuration with the bundler reputation profile and minimal stakes. -/
def cfg0 : RepConfig :=
  { params := BundlerReputationParams, minStake := 1, minUnstakeDelay := 1 }

def addrA : String := "0xaaaaaaaaaaaaaaaaaaaaaaaaaaaaaaaaaaaaaaaa"

def addrP : String := "0xcccccccccccccccccccccccccccccccccccccccc"

def repEmpty : RepState := { entries := [], blackList := [], whitelist := [] }

def stakeA : StakeInfo := { addr := addrA, stake := 1, unstakeDelaySec := 1 }

def stakeP : StakeInfo := { addr := addrP, stake := 1, unstakeDelaySec := 1 }

/-- UserOperation whose paymaster and factory are the same address. -/
def opDouble : UserOperation :=
  { sender := addrA, nonce := 0, initCode := addrP, callData := "0x"
    callGasLimit := 1, verificationGasLimit := 1, preVerificationGas := 1
    maxFeePerGas := 1, maxPriorityFeePerGas := 1
    paymasterAndData := addrP, signature := "0x" }

def state0 : FullState := { pool := mempoolClearState, rep := repEmpty }

/-- Result of adding `opDouble` to the empty bundler state. -/
def addDouble : FullState × Option RpcErr :=
  addUserOp cfg0 opDouble "0xhash1" 0 { addresses := [], hash := "" }
    stakeA (some stakeP) (some stakeP) none state0

/-- Reputation state holding one entry with `opsSeen = 24`,
`opsIncluded = 0`. -/
def repAged : RepState :=
  { entries := [("0xa", { address := "0xa", opsSeen := 24, opsIncluded := 0 })]
    blackList := [], whitelist := [] }

/-- Simulated return info with `validAfter = 0` and `validUntil = 0`. -/
def infoUntilZero : SimReturnInfo :=
  { preOpGas := 0, prefund := 0, sigFailed := false, validAfter := 0, validUntil := some 0 }

/-- Mempool entry used for concrete bundle-build runs: 42-character sender,
shared paymaster `addrP`, no factory, unit gas, fee 1. -/
def mkBundleEntry (sender : String) : MempoolEntry :=
  { userOp :=
      { sender := sender, nonce := 0, initCode := "0x", callData := "0x"
        callGasLimit := 1, verificationGasLimit := 1, preVerificationGas := 1
        maxFeePerGas := 1, maxPriorityFeePerGas := 1
        paymasterAndData := addrP, signature := "0x" }
    userOpHash := sender, prefund := 0
    referencedContracts := { addresses := [], hash := "" }
    aggregator := none }

/-- Six entries with distinct senders sharing the paymaster `addrP`. -/
def sixEntries : List MempoolEntry :=
  [mkBundleEntry "0xa111111111111111111111111111111111111111",
   mkBundleEntry "0xa222222222222222222222222222222222222222",
   mkBundleEntry "0xa333333333333333333333333333333333333333",
   mkBundleEntry "0xa444444444444444444444444444444444444444",
   mkBundleEntry "0xa555555555555555555555555555555555555555",
   mkBundleEntry "0xa666666666666666666666666666666666666666"]

def sixPool : MempoolState := { mempool := sixEntries, entryCount := fun _ => none }

/-- Build environment for the six-entry run: everybody validates with unit
`preOpGas`, zero prefund, no storage accesses; ample deposit and gas. -/
def envSix : BundleEnv :=
  { cfg := cfg0, rep := repEmpty
    validate := fun _ => some { preOpGas := 1, prefund := 0, storageKeys := [] }
    balanceOf := fun _ => 1000000
    maxBundleGas := 1000000 }

/-- UserOperation with no paymaster and no factory. -/
def opPlain : UserOperation :=
  { sender := addrA, nonce := 0, initCode := "0x", callData := "0x"
    callGasLimit := 1, verificationGasLimit := 1, preVerificationGas := 1
    maxFeePerGas := 1, maxPriorityFeePerGas := 1
    paymasterAndData := "0x", signature := "0x" }

/-- UserOperation with paymaster `addrP` and no factory. -/
def opWithPm : UserOperation :=
  (mkBundleEntry "0xa111111111111111111111111111111111111111").userOp

/-- Mempool entry holding `opPlain`. -/
def entryPlain : MempoolEntry :=
  { userOp := opPlain, userOpHash := "0xhplain", prefund := 0
    referencedContracts := { addresses := [], hash := "" }, aggregator := none }

/-- Zero-budget build environment used to exercise the gas break. -/
def envTiny : BundleEnv :=
  { cfg := cfg0, rep := repEmpty
    validate := fun _ => some { preOpGas := 100, prefund := 0, storageKeys := [] }
    balanceOf := fun _ => 0
    maxBundleGas := 0 }

/-- Simulated return info with a future `validAfter` and no `validUntil`. -/
def infoFuture : SimReturnInfo :=
  { preOpGas := 0, prefund := 0, sigFailed := false, validAfter := 5, validUntil := none }

end Bundler

namespace Bundler

set_option maxRecDepth 1000000

/- Helper lemmas -/

theorem isErr_requireCond (b : Bool) (m : String) (c code : Int) :
    isErrWithCode (requireCond b m c) code = if b then false else c == code := by
  cases b <;> rfl

theorem isErr_requireCond_bind (b : Bool) (m : String) (c code : Int)
    (rest : Except RpcErr Unit) :
    isErrWithCode (requireCond b m c >>= fun _ => rest) code =
      if b then isErrWithCode rest code else c == code := by
  cases b <;> rfl

theorem find?_map_modify (a : String) (f : ReputationEntry → ReputationEntry) :
    ∀ (l : List (String × ReputationEntry)) (pe : String × ReputationEntry),
      l.find? (fun p => p.1 == a) = some pe →
      (l.map (fun p => if p.1 == a then (p.1, f p.2) else p)).find? (fun p => p.1 == a) =
        some (pe.1, f pe.2) := by
  intro l
  induction l with
  | nil => intro pe h; simp [List.find?] at h
  | cons q t ih =>
    intro pe h
    cases hq : (q.1 == a) with
    | true =>
      simp only [List.find?, hq] at h
      cases h
      simp [List.find?, hq]
    | false =>
      simp only [List.find?, hq] at h
      simp only [List.map_cons, hq, Bool.false_eq_true, if_false, List.find?]
      exact ih pe h

theorem find?_append_right {α : Type} (p : α → Bool) (l l₂ : List α)
    (h : l.find? p = none) : (l ++ l₂).find? p = l₂.find? p := by
  induction l with
  | nil => rfl
  | cons q t ih =>
    cases hq : p q with
    | true => simp only [List.find?, hq] at h; cases h
    | false =>
      simp only [List.find?, hq] at h
      simp only [List.cons_append, List.find?, hq]
      exact ih h

theorem lookupEntry_modify (addr : String) (f : ReputationEntry → ReputationEntry)
    (s : RepState) :
    lookupEntry (modifyEntry addr f s) (lowercase addr) =
      some (f ((lookupEntry s (lowercase addr)).getD
        { address := lowercase addr, opsSeen := 0, opsIncluded := 0 })) := by
  cases h : lookupEntry s (lowercase addr) with
  | none =>
    have hf : s.entries.find? (fun p => p.1 == lowercase addr) = none := by
      unfold lookupEntry at h
      cases hx : s.entries.find? (fun p => p.1 == lowercase addr) with
      | none => rfl
      | some pe => rw [hx] at h; simp at h
    simp only [modifyEntry, h]
    unfold lookupEntry
    rw [find?_append_right _ _ _ hf]
    simp [List.find?]
  | some e =>
    have hf : ∃ pe, s.entries.find? (fun p => p.1 == lowercase addr) = some pe ∧ pe.2 = e := by
      unfold lookupEntry at h
      cases hx : s.entries.find? (fun p => p.1 == lowercase addr) with
      | none => rw [hx] at h; simp at h
      | some pe => rw [hx] at h; simp at h; exact ⟨pe, rfl, h⟩
    obtain ⟨pe, hpe, hpe2⟩ := hf
    simp only [modifyEntry, h]
    unfold lookupEntry
    rw [find?_map_modify _ f _ pe hpe]
    simp [hpe2]

/- Claim theorems -/

/-- C9: for every mempool state and every argument (a hash or a
UserOperation) that matches no stored entry, `removeUserOp` returns normally
and leaves both the mempool contents and every entry count unchanged. -/
theorem removeUserOp_noMatch_id (arg : UserOpOrHash) (s : MempoolState)
    (h : findIndexOf arg s.mempool = none) : removeUserOp arg s = s := by
  unfold removeUserOp
  rw [h]

theorem removeUserOp_noMatch_id_witness :
    removeUserOp (.hash "0xdeadbeef") mempoolClearState = mempoolClearState :=
  removeUserOp_noMatch_id _ _ (by decide)

/-- C10: `updateSeenStatus` and `crashedHandleOps` on a null address leave
the reputation state unchanged; an empty (`0x`) blob yields no address; in
particular an AA3-attributed failure whose op has empty `paymasterAndData`
modifies neither the reputation state nor the mempool. -/
theorem nullEntity_noop :
    (∀ s : RepState, updateSeenStatus none s = s) ∧
    (∀ s : RepState, crashedHandleOps none s = s) ∧
    getAddr (some "0x") = none ∧
    (∀ (ops : List UserOperation) (i : Nat) (op : UserOperation) (reason : String)
        (rep : RepState) (mp : MempoolState),
      ops.get? i = some op → strStartsWith reason "AA3" = true → op.paymasterAndData = "0x" →
      attributeBundleFailure ops i reason rep mp = some (rep, mp)) := by
  refine ⟨fun s => rfl, fun s => rfl, by decide, ?_⟩
  intro ops i op reason rep mp hget hAA hpm
  unfold attributeBundleFailure
  rw [hget]
  simp only [hAA, if_true, hpm]
  rfl

theorem nullEntity_noop_witness :
    attributeBundleFailure [opPlain] 0 "AA33 reverted" repEmpty mempoolClearState =
      some (repEmpty, mempoolClearState) :=
  nullEntity_noop.2.2.2 [opPlain] 0 opPlain "AA33 reverted" repEmpty mempoolClearState
    (by decide) (by decide) (by decide)

/-- C2: evaluation of `hourlyCron` at an entry with `opsSeen = 24`,
`opsIncluded = 0`: the aged entry has `opsIncluded = 22`, not
`⌊0·23/24⌋ = 0` — the counter grows, because line 65 recomputes it from the
already-aged `opsSeen`. -/
theorem hourlyCron_growsIncluded :
    lookupEntry (hourlyCron repAged) "0xa" =
      some { address := "0xa", opsSeen := 23, opsIncluded := 22 } ∧
    ((lookupEntry repAged "0xa").map (·.opsIncluded)).getD 0 = 0 := by
  exact ⟨by decide, by decide⟩

/-- C3 counterexample: with `validAfter = 0`, `validUntil = 0`, `now = 1000`
and a valid signature, the post-simulation checks raise `NotInTimeRange`
("already expired"), while the claim's violation predicate — which treats
`validUntil = 0` as "no expiry" — does not hold. -/
theorem validUntilZero_rejected :
    isErrWithCode (postSimulationChecks infoUntilZero 1000 false 5000 0)
        ValidationErrors.NotInTimeRange = true ∧
    specTimeRangeViolated infoUntilZero.validAfter infoUntilZero.validUntil 1000 = false := by
  decide

/-- C3 amended: with a passing signature check, the post-simulation checks
raise `NotInTimeRange` exactly when `validAfter > now`, or `validUntil` is a
number with `validUntil ≤ now + 30` — in particular `validUntil = 0` is
rejected (as already expired) rather than treated as no-expiry, and
`validUntil = now + 30` is rejected as expiring too soon; only a
null/undefined `validUntil` disables the expiry checks. -/
theorem notInTimeRange_iff (info : SimReturnInfo) (now : Int) (agg : Bool)
    (vgl pvg : Int) (hsig : info.sigFailed = false) :
    isErrWithCode (postSimulationChecks info now agg vgl pvg)
        ValidationErrors.NotInTimeRange = true ↔
      (now < info.validAfter ∨ ∃ u, info.validUntil = some u ∧ u ≤ now + 30) := by
  unfold postSimulationChecks
  rw [hsig]
  rw [isErr_requireCond_bind, isErr_requireCond_bind, isErr_requireCond_bind,
      isErr_requireCond_bind, isErr_requireCond_bind]
  simp only [Bool.not_false, if_true, isErr_requireCond, VALID_UNTIL_FUTURE_SECONDS]
  cases hvu : info.validUntil with
  | none =>
    by_cases hva : info.validAfter ≤ now
    · cases agg <;> by_cases hg : vgl - (info.preOpGas - pvg) ≥ 2000 <;>
        simp [hvu, hva, hg, ValidationErrors.SimulateValidation,
          ValidationErrors.UnsupportedSignatureAggregator,
          ValidationErrors.NotInTimeRange]
    · simp [hvu, hva, ValidationErrors.NotInTimeRange]
      omega
  | some u =>
    by_cases hva : info.validAfter ≤ now
    · by_cases h1 : u ≥ now
      · by_cases h2 : u > now + 30
        · cases agg <;> by_cases hg : vgl - (info.preOpGas - pvg) ≥ 2000 <;>
            simp [hvu, hva, h1, h2, hg, ValidationErrors.SimulateValidation,
              ValidationErrors.UnsupportedSignatureAggregator,
              ValidationErrors.NotInTimeRange]
        · simp [hvu, hva, h1, h2, ValidationErrors.NotInTimeRange]
          omega
      · simp [hvu, hva, h1, ValidationErrors.NotInTimeRange]
        omega
    · simp [hvu, hva, ValidationErrors.NotInTimeRange]
      omega

theorem notInTimeRange_iff_witness :
    isErrWithCode (postSimulationChecks infoFuture 3 false 5000 0)
        ValidationErrors.NotInTimeRange = true :=
  (notInTimeRange_iff infoFuture 3 false 5000 0 (by decide)).mpr (Or.inl (by decide))

theorem bundleGas_append (env : BundleEnv) (l : List MempoolEntry) (e : MempoolEntry) :
    bundleGas env (l ++ [e]) = bundleGas env l + entryGasCost env e := by
  simp [bundleGas, List.map_append, List.sum_append]

theorem admitEntry_totalGas (e : MempoolEntry) (g : Int) (factory : Option String)
    (s : BuildState) : (admitEntry e g factory s).totalGas = g := by
  cases factory <;> rfl

theorem admitEntry_bundle (e : MempoolEntry) (g : Int) (factory : Option String)
    (s : BuildState) : (admitEntry e g factory s).bundle = s.bundle ++ [e] := by
  cases factory <;> rfl

theorem createBundleLoop_gas (env : BundleEnv) (ks : List String) :
    ∀ (entries : List MempoolEntry) (s : BuildState),
      s.totalGas ≤ env.maxBundleGas → s.totalGas = bundleGas env s.bundle →
      (createBundleLoop env ks entries s).totalGas ≤ env.maxBundleGas ∧
      (createBundleLoop env ks entries s).totalGas =
        bundleGas env (createBundleLoop env ks entries s).bundle := by
  intro entries
  induction entries with
  | nil => intro s h1 h2; exact ⟨h1, h2⟩
  | cons e rest ih =>
    intro s h1 h2
    rw [createBundleLoop]
    split
    · exact ih _ h1 h2
    · split
      · exact ih _ h1 h2
      · split
        · exact ih _ h1 h2
        · split
          · exact ih _ h1 h2
          · split
            · exact ih _ h1 h2
            · rename_i v hv
              split
              · exact ih _ h1 h2
              · split
                · rename_i p hp
                  dsimp only
                  split
                  · exact ⟨h1, h2⟩
                  · rename_i hgas
                    split
                    · exact ih _ h1 h2
                    · apply ih
                      · rw [admitEntry_totalGas]
                        omega
                      · rw [admitEntry_totalGas, admitEntry_bundle]
                        rw [bundleGas_append, ← h2]
                        simp [entryGasCost, hv]
                · dsimp only
                  split
                  · exact ⟨h1, h2⟩
                  · rename_i hgas
                    apply ih
                    · rw [admitEntry_totalGas]
                      omega
                    · rw [admitEntry_totalGas, admitEntry_bundle]
                      rw [bundleGas_append, ← h2]
                      simp [entryGasCost, hv]

/-- C6: the bundle returned by `createBundle` always satisfies
`∑ (preOpGas + callGasLimit) ≤ maxBundleGas` (when the configured bound is
nonnegative), and whenever an entry passes every admission guard up to the
gas check but its cost would push `totalGas` over `maxBundleGas`, the loop
stops there (`break`), returning exactly the ops admitted before it. -/
theorem createBundle_gasBounded :
    (∀ (env : BundleEnv) (mp : MempoolState), 0 ≤ env.maxBundleGas →
      bundleGas env (createBundle env mp).bundle ≤ env.maxBundleGas) ∧
    (∀ (env : BundleEnv) (ks : List String) (e : MempoolEntry) (rest : List MempoolEntry)
        (s : BuildState) (v : ValidationOutcome),
      bannedGuard env e = false →
      throttleSkipGuard s
        (getStatus env.cfg.params env.rep (getAddr (some e.userOp.paymasterAndData)))
        (getAddr (some e.userOp.paymasterAndData)) = false →
      throttleSkipGuard s
        (getStatus env.cfg.params env.rep (getAddr (some e.userOp.initCode)))
        (getAddr (some e.userOp.initCode)) = false →
      s.senders.contains e.userOp.sender = false →
      env.validate e = some v →
      storageConflictGuard ks v e = false →
      env.maxBundleGas < s.totalGas + (v.preOpGas + e.userOp.callGasLimit) →
      createBundleLoop env ks (e :: rest) s = s) := by
  constructor
  · intro env mp h
    obtain ⟨ha, hb⟩ := createBundleLoop_gas env (getKnownSenders mp)
      (getSortedForInclusion mp) (initBuildState mp) h rfl
    exact hb ▸ ha
  · intro env ks e rest s v hban hpm hfac hsend hv hstor hgas
    rw [createBundleLoop]
    simp only [hban, hpm, hfac, hsend, hv, hstor, Bool.false_eq_true, if_false]
    rw [if_pos hgas]

theorem createBundle_gasBounded_witness :
    bundleGas envTiny
        (createBundle envTiny { mempool := [entryPlain], entryCount := fun _ => none }).bundle ≤
      envTiny.maxBundleGas ∧
    createBundleLoop envTiny [] [entryPlain] (initBuildState mempoolClearState) =
      initBuildState mempoolClearState :=
  ⟨createBundle_gasBounded.1 envTiny _ (by decide),
   createBundle_gasBounded.2 envTiny [] entryPlain [] (initBuildState mempoolClearState)
     { preOpGas := 100, prefund := 0, storageKeys := [] }
     (by decide) (by decide) (by decide) (by decide) rfl (by decide) (by decide)⟩

/-- C4: evaluation of the build loop on six entries sharing one paymaster
whose reputation status is OK: the code admits all six ops — by the time the
sixth is processed the paymaster already appears 5 times in
`stakedEntityCount`, yet it is not skipped, because `a ?? b` with the
non-null boolean `a = (status === THROTTLED)` never evaluates the count
comparison.  The claim (reading the guard as a logical or) expects the sixth
op to be skipped. -/
theorem throttledPaymasterCount_deadCode :
    (createBundle envSix sixPool).bundle.length = 6 ∧
    (createBundle envSix sixPool).stakedEntityCount addrP = some 6 ∧
    getStatus envSix.cfg.params envSix.rep (some addrP) = ReputationStatus.OK :=
  ⟨by decide, by decide, by decide⟩

/-- C7: when a bundle failure parses as `FailedOp` with a reason starting
with AA3 and the failing op has a paymaster, the attribution calls
`crashedHandleOps` on that paymaster — afterwards its entry has
`opsSeen = old + 10000` and `opsIncluded = 0` — and the mempool is left
untouched (the op is not removed). -/
theorem crashedPaymaster_onAA3 (ops : List UserOperation) (i : Nat) (op : UserOperation)
    (reason : String) (rep : RepState) (mp : MempoolState) (p : String)
    (hget : ops.get? i = some op)
    (hAA3 : strStartsWith reason "AA3" = true)
    (hpm : getAddr (some op.paymasterAndData) = some p) :
    attributeBundleFailure ops i reason rep mp = some (crashedHandleOps (some p) rep, mp) ∧
    ∃ e, lookupEntry (crashedHandleOps (some p) rep) (lowercase p) = some e ∧
      e.opsSeen = ((lookupEntry rep (lowercase p)).map (·.opsSeen)).getD 0 + 10000 ∧
      e.opsIncluded = 0 := by
  constructor
  · unfold attributeBundleFailure
    rw [hget]
    simp only [hAA3, if_true, hpm]
  · show ∃ e, lookupEntry (modifyEntry p _ rep) (lowercase p) = some e ∧ _
    rw [lookupEntry_modify]
    refine ⟨_, rfl, ?_, rfl⟩
    cases h : lookupEntry rep (lowercase p) <;> simp [h]

theorem crashedPaymaster_onAA3_witness :
    attributeBundleFailure [opWithPm] 0 "AA33 reverted" repEmpty mempoolClearState =
      some (crashedHandleOps (some addrP) repEmpty, mempoolClearState) ∧
    ∃ e, lookupEntry (crashedHandleOps (some addrP) repEmpty) (lowercase addrP) = some e ∧
      e.opsSeen = ((lookupEntry repEmpty (lowercase addrP)).map (·.opsSeen)).getD 0 + 10000 ∧
      e.opsIncluded = 0 :=
  crashedPaymaster_onAA3 [opWithPm] 0 opWithPm "AA33 reverted" repEmpty mempoolClearState addrP
    (by decide) (by decide) (by decide)

theorem pos_incrementEntryCount (x : Option String) (m : EntryCountMap)
    (h : EntryCountPos m) : EntryCountPos (incrementEntryCount x m) := by
  cases x with
  | none => exact h
  | some raw =>
    intro b v hv
    simp only [incrementEntryCount] at hv
    by_cases hk : b = lowercase raw
    · rw [if_pos hk] at hv
      cases hm : m (lowercase raw) with
      | none => simp [hm] at hv; omega
      | some w =>
        have hw := h _ _ hm
        simp [hm] at hv
        omega
    · rw [if_neg hk] at hv
      exact h _ _ hv

theorem pos_decrementEntryCount (x : Option String) (m : EntryCountMap)
    (h : EntryCountPos m) : EntryCountPos (decrementEntryCount x m) := by
  cases x with
  | none => exact h
  | some raw =>
    intro b v hv
    simp only [decrementEntryCount] at hv
    cases hm : m (lowercase raw) with
    | none => rw [hm] at hv; exact h _ _ hv
    | some w =>
      rw [hm] at hv
      dsimp only at hv
      by_cases hk : b = lowercase raw
      · rw [if_pos hk] at hv
        by_cases hw : w - 1 ≤ 0
        · rw [if_pos hw] at hv; cases hv
        · rw [if_neg hw] at hv
          cases hv
          omega
      · rw [if_neg hk] at hv
        exact h _ _ hv

theorem pos_removeUserOp (arg : UserOpOrHash) (s : MempoolState)
    (h : EntryCountPos s.entryCount) : EntryCountPos (removeUserOp arg s).entryCount := by
  unfold removeUserOp
  split
  · exact h
  · split
    · exact h
    · exact pos_decrementEntryCount _ _ (pos_decrementEntryCount _ _ (pos_decrementEntryCount _ _ h))

theorem pos_addUserOp (cfg : RepConfig) (uo : UserOperation) (uh : String) (pf : Int)
    (rc : ReferencedCodeHashes) (si : StakeInfo) (pmi fci agi : Option StakeInfo)
    (st : FullState) (h : EntryCountPos st.pool.entryCount) :
    EntryCountPos (addUserOp cfg uo uh pf rc si pmi fci agi st).1.pool.entryCount := by
  unfold addUserOp
  dsimp only
  split
  · split
    · exact h
    · split
      · exact h
      · exact h
  · split
    · exact pos_incrementEntryCount _ _ (pos_incrementEntryCount _ _ (pos_incrementEntryCount _ _ h))
    · split
      · exact pos_incrementEntryCount _ _ (pos_incrementEntryCount _ _ (pos_incrementEntryCount _ _ h))
      · exact pos_incrementEntryCount _ _ (pos_incrementEntryCount _ _ (pos_incrementEntryCount _ _ h))

/-- C8: in every state reachable through the public mempool operations
(including `addUserOp` calls that throw), every address present in the
internal entry-count map holds a strictly positive value — `entryCount`
returns either `undefined` or a number ≥ 1, never zero or a negative
number. -/
theorem entryCount_positive (s : FullState) (h : ReachableState s) :
    ∀ a v, s.pool.entryCount a = some v → 1 ≤ v := by
  induction h with
  | init rep => intro a v hv; exact absurd hv (by simp [mempoolClearState])
  | clear _ ih => intro a v hv; exact absurd hv (by simp [mempoolClearState])
  | remove arg _ ih => exact pos_removeUserOp arg _ ih
  | add cfg uo uh pf rc si pmi fci agi _ ih => exact pos_addUserOp cfg uo uh pf rc si pmi fci agi _ ih
  | repStep rep _ ih => exact ih

theorem entryCount_positive_witness :
    addDouble.1.pool.entryCount (lowercase addrA) = some 1 ∧ (1 : Int) ≤ 1 :=
  ⟨by decide,
   entryCount_positive addDouble.1
     (ReachableState.add cfg0 opDouble "0xhash1" 0 { addresses := [], hash := "" }
       stakeA (some stakeP) (some stakeP) none (ReachableState.init repEmpty))
     (lowercase addrA) 1 (by decide)⟩

theorem inv_inc (raw : String) (c : String → Nat) (m : EntryCountMap) (h : CountsInv c m) :
    CountsInv (fun b => if lowercase raw = b then c b + 1 else c b)
      (incrementEntryCount (some raw) m) := by
  intro b
  dsimp only
  simp only [incrementEntryCount]
  by_cases hk : b = lowercase raw
  · rw [if_pos hk, if_pos hk.symm]
    rw [if_neg (show ¬(c b + 1 = 0) by omega)]
    have hb := h (lowercase raw)
    rw [hk]
    by_cases hc : c (lowercase raw) = 0
    · rw [hb, if_pos hc]
      simp [hc]
    · rw [hb, if_neg hc]
      norm_cast
  · rw [if_neg hk, if_neg (c := lowercase raw = b) (fun hh => hk hh.symm)]
    exact h b

theorem inv_dec (raw : String) (c : String → Nat) (m : EntryCountMap) (h : CountsInv c m)
    (hpos : 1 ≤ c (lowercase raw)) :
    CountsInv (fun b => if lowercase raw = b then c b - 1 else c b)
      (decrementEntryCount (some raw) m) := by
  have hm : m (lowercase raw) = some (c (lowercase raw) : Int) := by
    have hh := h (lowercase raw)
    rw [if_neg (by omega)] at hh
    exact hh
  intro b
  dsimp only
  simp only [decrementEntryCount, hm]
  by_cases hk : b = lowercase raw
  · rw [if_pos hk, if_pos hk.symm]
    rw [hk]
    by_cases hc : c (lowercase raw) = 1
    · rw [if_pos (show (c (lowercase raw) : Int) - 1 ≤ 0 by omega),
          if_pos (show c (lowercase raw) - 1 = 0 by omega)]
    · rw [if_neg (show ¬((c (lowercase raw) : Int) - 1 ≤ 0) by omega),
          if_neg (show ¬(c (lowercase raw) - 1 = 0) by omega)]
      rw [Nat.cast_sub hpos, Nat.cast_one]
  · rw [if_neg hk, if_neg (c := lowercase raw = b) (fun hh => hk hh.symm)]
    exact h b



theorem inv_incList : ∀ (L : List String) (c : String → Nat) (m : EntryCountMap),
    CountsInv c m → CountsInv (fun b => c b + lowerCount L b) (incList L m) := by
  intro L
  induction L with
  | nil =>
    intro c m h b
    simpa [incList, lowerCount] using h b
  | cons x t ih =>
    intro c m h b
    have h2 := ih _ _ (inv_inc x c m h) b
    dsimp only at h2
    have hcount : (if lowercase x = b then c b + 1 else c b) + lowerCount t b =
        c b + lowerCount (x :: t) b := by
      unfold lowerCount
      rw [List.countP_cons]
      by_cases hk : lowercase x = b <;> simp [hk] <;> omega
    rw [hcount] at h2
    exact h2

theorem inv_decList : ∀ (L : List String) (c : String → Nat) (m : EntryCountMap),
    CountsInv c m → (∀ b, lowerCount L b ≤ c b) →
    CountsInv (fun b => c b - lowerCount L b) (decList L m) := by
  intro L
  induction L with
  | nil =>
    intro c m h _ b
    simpa [decList, lowerCount] using h b
  | cons x t ih =>
    intro c m h hle b
    have hpos : 1 ≤ c (lowercase x) := by
      have hx := hle (lowercase x)
      unfold lowerCount at hx
      rw [List.countP_cons] at hx
      simp at hx
      omega
    have hle' : ∀ b2, lowerCount t b2 ≤ (if lowercase x = b2 then c b2 - 1 else c b2) := by
      intro b2
      have hb2 := hle b2
      unfold lowerCount at hb2 ⊢
      rw [List.countP_cons] at hb2
      by_cases hk : lowercase x = b2 <;> simp [hk] at hb2 <;> simp [hk] <;> omega
    have h2 := ih _ _ (inv_dec x c m h hpos) hle' b
    dsimp only at h2
    have hcount : (if lowercase x = b then c b - 1 else c b) - lowerCount t b =
        c b - lowerCount (x :: t) b := by
      unfold lowerCount
      rw [List.countP_cons]
      by_cases hk : lowercase x = b <;> simp [hk] <;> omega
    rw [hcount] at h2
    exact h2



theorem roleCount_cons (e : MempoolEntry) (pool : List MempoolEntry) (b : String) :
    roleCount (e :: pool) b = lowerCount (entityParts e) b + roleCount pool b := by
  simp [roleCount]

theorem roleCount_append (pool : List MempoolEntry) (e : MempoolEntry) (b : String) :
    roleCount (pool ++ [e]) b = roleCount pool b + lowerCount (entityParts e) b := by
  simp [roleCount]

theorem lowerCount_le_roleCount (pool : List MempoolEntry) (i : Nat) (e : MempoolEntry)
    (hg : pool.get? i = some e) (b : String) :
    lowerCount (entityParts e) b ≤ roleCount pool b := by
  induction pool generalizing i with
  | nil => simp at hg
  | cons q t ih =>
    cases i with
    | zero =>
      simp at hg
      subst hg
      rw [roleCount_cons]
      omega
    | succ j =>
      have hj := ih j (by simpa using hg)
      rw [roleCount_cons]
      omega

theorem roleCount_eraseIdx (pool : List MempoolEntry) (i : Nat) (e : MempoolEntry)
    (hg : pool.get? i = some e) (b : String) :
    roleCount (pool.eraseIdx i) b = roleCount pool b - lowerCount (entityParts e) b := by
  induction pool generalizing i with
  | nil => simp at hg
  | cons q t ih =>
    cases i with
    | zero =>
      simp at hg
      subst hg
      simp only [List.eraseIdx]
      rw [roleCount_cons]
      omega
    | succ j =>
      have hg2 : t.get? j = some e := by simpa using hg
      have hle := lowerCount_le_roleCount t j e hg2 b
      simp only [List.eraseIdx]
      rw [roleCount_cons, roleCount_cons, ih j hg2]
      omega

theorem roleCount_set (pool : List MempoolEntry) (i : Nat) (old enew : MempoolEntry)
    (hg : pool.get? i = some old) (hparts : entityParts enew = entityParts old) (b : String) :
    roleCount (pool.set i enew) b = roleCount pool b := by
  induction pool generalizing i with
  | nil => simp at hg
  | cons q t ih =>
    cases i with
    | zero =>
      simp at hg
      subst hg
      simp only [List.set]
      rw [roleCount_cons, roleCount_cons, hparts]
    | succ j =>
      simp only [List.set]
      rw [roleCount_cons, roleCount_cons, ih j (by simpa using hg)]

theorem decChain_eq_decList (u : UserOperation) (m : EntryCountMap) :
    decrementEntryCount (getAddr (some u.initCode))
      (decrementEntryCount (getAddr (some u.paymasterAndData))
        (decrementEntryCount (some u.sender) m)) = decList (entityPartsOp u) m := by
  unfold entityPartsOp decList
  cases hpm : getAddr (some u.paymasterAndData) <;> cases hic : getAddr (some u.initCode) <;> rfl

theorem incChain_eq_incList (u : UserOperation) (m : EntryCountMap) :
    incrementEntryCount (getAddr (some u.initCode))
      (incrementEntryCount (getAddr (some u.paymasterAndData))
        (incrementEntryCount (some u.sender) m)) = incList (entityPartsOp u) m := by
  unfold entityPartsOp incList
  cases hpm : getAddr (some u.paymasterAndData) <;> cases hic : getAddr (some u.initCode) <;> rfl

theorem findBySenderNonce_get (sender : String) (nonce : Int) :
    ∀ (l : List MempoolEntry) (i : Nat), findBySenderNonce sender nonce l = some i →
      ∃ e, l.get? i = some e ∧ e.userOp.sender = sender ∧ e.userOp.nonce = nonce := by
  intro l
  induction l with
  | nil => intro i h; simp [findBySenderNonce] at h
  | cons q t ih =>
    intro i h
    simp only [findBySenderNonce] at h
    by_cases hq : (q.userOp.sender == sender && q.userOp.nonce == nonce) = true
    · rw [if_pos hq] at h
      cases h
      simp at hq
      exact ⟨q, rfl, hq.1, hq.2⟩
    · rw [if_neg hq] at h
      cases hmm : findBySenderNonce sender nonce t with
      | none => rw [hmm] at h; simp at h
      | some j =>
        rw [hmm] at h
        simp at h
        obtain ⟨e, hg, h1, h2⟩ := ih j hmm
        subst h
        exact ⟨e, by simpa using hg, h1, h2⟩



theorem consistent_remove (arg : UserOpOrHash) (p : MempoolState)
    (h : entryCountConsistent p) : entryCountConsistent (removeUserOp arg p) := by
  unfold removeUserOp
  split
  · exact h
  · rename_i i hfi
    split
    · exact h
    · rename_i e hge
      intro b
      dsimp only
      rw [decChain_eq_decList]
      have hle : ∀ b2, lowerCount (entityPartsOp e.userOp) b2 ≤ roleCount p.mempool b2 :=
        fun b2 => lowerCount_le_roleCount p.mempool i e hge b2
      have h2 := inv_decList (entityPartsOp e.userOp) (roleCount p.mempool) p.entryCount h hle b
      dsimp only at h2
      rw [roleCount_eraseIdx p.mempool i e hge b]
      exact h2

theorem consistent_add (cfg : RepConfig) (uo : UserOperation) (uh : String) (pf : Int)
    (rc : ReferencedCodeHashes) (si : StakeInfo) (pmi fci agi : Option StakeInfo)
    (st s2 : FullState)
    (heq : addUserOp cfg uo uh pf rc si pmi fci agi st = (s2, none))
    (hpres : preservesReplacementEntities uo st)
    (h : entryCountConsistent st.pool) : entryCountConsistent s2.pool := by
  unfold addUserOp at heq
  dsimp only at heq
  split at heq
  · rename_i index hfind
    split at heq
    · injection heq with h1 h2
      rw [← h1]
      exact h
    · rename_i old hget
      split at heq
      · injection heq with h1 h2
        cases h2
      · injection heq with h1 h2
        rw [← h1]
        intro b
        dsimp only
        obtain ⟨e0, hg0, hs0, hn0⟩ :=
          findBySenderNonce_get uo.sender uo.nonce st.pool.mempool index hfind
        have hee : e0 = old := by
          rw [hg0] at hget
          exact Option.some.inj hget
        subst hee
        obtain ⟨hpm, hic⟩ := hpres index e0 hfind hget
        have hparts : entityParts
            { userOp := uo, userOpHash := uh, prefund := pf, referencedContracts := rc,
              aggregator := agi.map (fun x => x.addr) } = entityParts e0 := by
          unfold entityParts entityPartsOp
          rw [hpm, hic, ← hs0]
        rw [roleCount_set st.pool.mempool index e0 _ hget hparts b]
        exact h b
  · rename_i hfind
    split at heq
    · injection heq with h1 h2
      cases h2
    · split at heq
      · injection heq with h1 h2
        cases h2
      · injection heq with h1 h2
        rw [← h1]
        intro b
        dsimp only
        rw [incChain_eq_incList]
        have h2b := inv_incList (entityPartsOp uo) (roleCount st.pool.mempool)
          st.pool.entryCount h b
        dsimp only at h2b
        rw [roleCount_append]
        exact h2b

/-- C1 amended: in every state reachable through successful `addUserOp`
calls whose replacements preserve the entry's paymaster and factory,
`removeUserOp` and `clearState`, the entry-count map stores, for every
address, the number of (entry, role) pairs whose lowercased sender,
paymaster or factory address equals it — counted with multiplicity, one per
role — and the key is absent exactly when that number is zero. -/
theorem entryCount_roleCount (s : FullState) (h : ReachableConsistent s) :
    entryCountConsistent s.pool := by
  induction h with
  | init rep => intro b; simp [mempoolClearState, roleCount]
  | clear _ ih => intro b; simp [mempoolClearState, roleCount]
  | remove arg hr ih => exact consistent_remove arg _ ih
  | addOk cfg uo uh pf rc si pmi fci agi hr heq hpres ih =>
    exact consistent_add cfg uo uh pf rc si pmi fci agi _ _ heq hpres ih
  | repStep rep _ ih => exact ih



/-- C1 counterexample: one successful `addUserOp` on the empty mempool of a
UserOperation whose paymaster and factory are the same address `addrP`
leaves `entryCount[addrP] = 2`, while only 1 mempool entry has `addrP`
among its sender, factory or paymaster — the claimed per-entry equality
fails (the count is per role, not per entry; moreover failed `addUserOp`
calls and entity-changing replacements also desynchronize the map). -/
theorem entryCount_claim_counterexample :
    addDouble.2 = none ∧
    addDouble.1.pool.entryCount addrP = some 2 ∧
    specEntriesContaining addDouble.1.pool.mempool addrP = 1 :=
  ⟨by decide, by decide, by decide⟩

theorem entryCount_roleCount_witness :
    addDouble.1.pool.entryCount addrP =
      if roleCount addDouble.1.pool.mempool addrP = 0 then none
      else some (roleCount addDouble.1.pool.mempool addrP : Int) := by
  have heq : addUserOp cfg0 opDouble "0xhash1" 0 { addresses := [], hash := "" }
      stakeA (some stakeP) (some stakeP) none state0 = (addDouble.1, none) := by
    have h2 : addDouble.2 = none := by decide
    calc addUserOp cfg0 opDouble "0xhash1" 0 { addresses := [], hash := "" }
          stakeA (some stakeP) (some stakeP) none state0
        = (addDouble.1, addDouble.2) := rfl
      _ = (addDouble.1, none) := by rw [h2]
  have hpres : preservesReplacementEntities opDouble state0 := by
    intro i old hf hg
    exact Option.noConfusion hf
  have hreach : ReachableConsistent addDouble.1 :=
    ReachableConsistent.addOk cfg0 opDouble "0xhash1" 0 { addresses := [], hash := "" }
      stakeA (some stakeP) (some stakeP) none (ReachableConsistent.init repEmpty) heq hpres
  exact entryCount_roleCount addDouble.1 hreach addrP

end Bundler
